import Mathlib

/-!
# Verification of the `zip` iterator header (`src/Iter.h`)

A shallow embedding of the zip-iterator adaptor.  The C++ code is a variadic
template over `N` container types; since the claims concern positions and
per-sequence elements, the element types are unified to a single type `α`
(with a linear order where value comparisons occur) and the `N` underlying
containers are modelled as a family `Fin n → List α`.

A C++ random-access iterator into container `i` is modelled by its offset
from `containers i |>.begin()`, a natural number.  `Iter`'s tuple of
iterators (`IterPack.iters_`) is therefore a function `Fin n → Nat`.
Dereferencing an iterator at an out-of-range offset is undefined behaviour
in C++; the model totalises those reads with a default element (`Inhabited`)
and the theorems only speak about valid offsets.
-/

namespace zip

/-- The group of `n` underlying containers (`Args &...containers`):
container `i` is the list `s i`. -/
def Seqs (n : Nat) (α : Type) := Fin n → List α

/-- `Iter<Args...>::IterPack`: the tuple of per-container iterators,
each iterator represented by its offset from its container's begin. -/
structure IterPack (n : Nat) where
  iters_ : Fin n → Nat
deriving DecidableEq

/-- `Iter<Args...>`: the zip iterator, holding its private `IterPack pack`. -/
structure Iter (n : Nat) where
  pack : IterPack n
deriving DecidableEq

/-- `LengthEqualityException`: the error thrown by `Begin` on a length
mismatch.  It carries no data. -/
structure LengthEqualityException where
deriving DecidableEq

/-- `std::tuple` `operator==` over same-arity tuples, elementwise
(modelled on lists). -/
def tuple_eq [DecidableEq α] : List α → List α → Bool
  | [], [] => true
  | x :: xs, y :: ys => decide (x = y) && tuple_eq xs ys
  | _, _ => false

/-- `std::tuple` `operator<` over same-arity tuples: lexicographic,
first components compared first (`x < y ? true : (y < x ? false : rest)`). -/
def tuple_lt [LT α] [DecidableRel (· < · : α → α → Prop)] :
    List α → List α → Bool
  | x :: xs, y :: ys =>
      if x < y then true else if y < x then false else tuple_lt xs ys
  | _, _ => false

/-- The list of per-container offsets of a cursor, in source order
(component `0` first), mirroring the layout of `pack.iters_` as a
`std::tuple`. -/
def posList (it : Iter n) : List Nat :=
  List.ofFn it.pack.iters_

namespace Iter

/-- `Iter::operator*`: returns (a reference to) the internal pack itself,
not a snapshot. -/
def star (it : Iter n) : IterPack n :=
  it.pack

/-- `Iter::operator++`: increments every underlying iterator. -/
def inc (it : Iter n) : Iter n :=
  ⟨⟨fun i => it.pack.iters_ i + 1⟩⟩

/-- `Iter::operator--`: decrements every underlying iterator.  Moving an
iterator before its container's begin is undefined behaviour in C++; the
model truncates at 0. -/
def dec (it : Iter n) : Iter n :=
  ⟨⟨fun i => it.pack.iters_ i - 1⟩⟩

/-- `Iter::operator+=(int shift)`: `std::advance`s every underlying
iterator by `shift` (possibly negative).  Moving before begin is undefined
behaviour in C++; the model truncates at 0 via `Int.toNat`. -/
def addAssign (it : Iter n) (shift : Int) : Iter n :=
  ⟨⟨fun i => ((it.pack.iters_ i : Int) + shift).toNat⟩⟩

/-- `Iter::operator+(int shift)`: copies the iterator and applies `+=`. -/
def add (it : Iter n) (shift : Int) : Iter n :=
  it.addAssign shift

/-- `Iter::operator-(rhs)`: the difference of the two *first* underlying
iterators, `std::get<0>(pack.iters_) - std::get<0>(rhs.pack.iters_)`.
Only defined (in C++: only well-formed) for at least one container. -/
def sub (lhs rhs : Iter (n + 1)) : Int :=
  (lhs.pack.iters_ 0 : Int) - (rhs.pack.iters_ 0 : Int)

/-- `Iter::operator==`: equality of the underlying iterator tuples. -/
def eq (lhs rhs : Iter n) : Bool :=
  tuple_eq (posList lhs) (posList rhs)

/-- `Iter::operator!=`: `std::tuple`'s `!=`, i.e. the negation of `==`. -/
def ne (lhs rhs : Iter n) : Bool :=
  !tuple_eq (posList lhs) (posList rhs)

/-- `Iter::operator<`: `std::tuple`'s lexicographic `<` on the iterator
tuples. -/
def lt (lhs rhs : Iter n) : Bool :=
  tuple_lt (posList lhs) (posList rhs)

/-- `Iter::operator<=`: `std::tuple`'s `<=`, i.e. `!(rhs < lhs)`. -/
def le (lhs rhs : Iter n) : Bool :=
  !tuple_lt (posList rhs) (posList lhs)

/-- `Iter::operator>`: `std::tuple`'s `>`, i.e. `rhs < lhs`. -/
def gt (lhs rhs : Iter n) : Bool :=
  tuple_lt (posList rhs) (posList lhs)

/-- `Iter::operator>=`: `std::tuple`'s `>=`, i.e. `!(lhs < rhs)`. -/
def ge (lhs rhs : Iter n) : Bool :=
  !tuple_lt (posList lhs) (posList rhs)

end Iter

namespace IterPack

/-- `*std::get<i>(iters_)`: the element of container `i` at this pack's
`i`-th offset.  Out-of-range dereference is undefined behaviour in C++;
the model totalises it with the default element. -/
def derefAt [Inhabited α] (s : Seqs n α) (p : IterPack n) (i : Fin n) : α :=
  (s i).getD (p.iters_ i) default

/-- `IterPack::deref()` (the const overload, `std::forward_as_tuple` of the
dereferenced iterators): the tuple of currently pointed-to values, in source
order.  The mutable overload (`deref_`, line 222) is ill-formed C++
(`std::forward<>` with no template argument and `N` arguments) and never
compiles; this definition follows the const overload, which is also the
documented intent of both. -/
def deref [Inhabited α] (s : Seqs n α) (p : IterPack n) : List α :=
  List.ofFn fun i => p.derefAt s i

/-- `IterPack::operator<`: compares the tuples of pointed-to values
(`deref() < rhs.deref()`, `std::tuple`'s lexicographic `<`). -/
def lt [Inhabited α] [LinearOrder α] (s : Seqs n α) (lhs rhs : IterPack n) :
    Bool :=
  tuple_lt (lhs.deref s) (rhs.deref s)

/-- `IterPack::operator==`: compares the tuples of pointed-to values
(`deref() == rhs.deref()`). -/
def eqv [Inhabited α] [DecidableEq α] (s : Seqs n α) (lhs rhs : IterPack n) :
    Bool :=
  tuple_eq (lhs.deref s) (rhs.deref s)

end IterPack

/-- `std::iter_swap(p, q)` on two iterators into the same list: exchanges
the elements at offsets `a` and `b`.  With an out-of-range operand it is
undefined behaviour in C++; the model leaves the list unchanged there. -/
def iter_swap (l : List α) (a b : Nat) : List α :=
  match l[a]?, l[b]? with
  | some x, some y => (l.set a y).set b x
  | _, _ => l

/-- `swap(IterPack &lhs, IterPack &rhs)` (the ADL friend): for every
container `i`, `std::iter_swap`s the two pointed-to elements.  The state it
may touch is the containers and the two packs; it reads the packs'
iterators and writes only the containers, so the packs are returned
unchanged. -/
def swapPacks [Inhabited α] (s : Seqs n α) (lhs rhs : IterPack n) :
    Seqs n α × IterPack n × IterPack n :=
  (fun i => iter_swap (s i) (lhs.iters_ i) (rhs.iters_ i), lhs, rhs)

/-- Assignment through component `i` of the dereferenced tuple
(`std::get<i>(*pack) = v`).  Modelled from the spec: the mutable
dereference path (`IterPack::operator*` via the mutable `deref_`) is
ill-formed C++ and never compiles, so the reference returned for component
`i` is modelled as the location (container `i`, offset `iters_ i`) that the
documented intent (`std::forward_as_tuple`, as in the const overload)
aliases; writing through it sets that element of container `i`. -/
def writeThrough (s : Seqs n α) (p : IterPack n) (i : Fin n) (v : α) :
    Seqs n α :=
  fun j => if j = i then (s j).set (p.iters_ j) v else s j

/-- `all_equal(x)` / `all_equal(x, y)` / `all_equal(x, y, args...)`:
the chained equality check over a nonempty argument pack, modelled on the
list of arguments.  (The empty case has no C++ overload and cannot be
reached from `Begin`, which would be ill-formed for zero containers.) -/
def all_equal [DecidableEq α] : List α → Bool
  | [] => true
  | [_] => true
  | x :: y :: rest => decide (x = y) && all_equal (y :: rest)

/-- `containers.size()...`: the sizes of the containers, in source order. -/
def sizes (s : Seqs n α) : List Nat :=
  List.ofFn fun i => (s i).length

/-- `Begin(containers...)`: throws `LengthEqualityException` unless all
container sizes are equal; otherwise constructs the `Iter` from
`containers.begin()...`, i.e. every offset 0. -/
def Begin (s : Seqs n α) : Except LengthEqualityException (Iter n) :=
  if all_equal (sizes s) then .ok ⟨⟨fun _ => 0⟩⟩ else .error ⟨⟩

/-- `End(containers...)`: constructs the `Iter` from `containers.end()...`,
i.e. every offset at its container's length, with no validation. -/
def End (s : Seqs n α) : Iter n :=
  ⟨⟨fun i => (s i).length⟩⟩

/-- The synchronisation invariant of the spec: all components of the cursor
are at the same logical offset from their containers' starts. -/
def Synced (it : Iter n) : Prop :=
  ∀ i j : Fin n, it.pack.iters_ i = it.pack.iters_ j

/-- All of a pack's offsets are in range for their containers. -/
abbrev ValidP (s : Seqs n α) (p : IterPack n) : Prop :=
  ∀ i : Fin n, p.iters_ i < (s i).length

/-- Lexicographic comparison as the spec words it: the first component is
the primary key, each later component breaks ties of all earlier ones. -/
def lex_spec [LT α] : List α → List α → Prop
  | x :: xs, y :: ys => x < y ∨ (x = y ∧ lex_spec xs ys)
  | _, _ => False

/-- A concrete pair of containers used to instantiate theorems with
hypotheses: two lists of naturals of length 2. -/
def w2seqs : Seqs 2 Nat := fun _ => [10, 20]

-- ============================================
--  Helper lemmas
-- ============================================

theorem tuple_eq_iff [DecidableEq α] :
    ∀ {l m : List α}, tuple_eq l m = true ↔ l = m := by
  intro l
  induction l with
  | nil => intro m; cases m <;> simp [tuple_eq]
  | cons x xs ih =>
    intro m
    cases m with
    | nil => simp [tuple_eq]
    | cons y ys => simp [tuple_eq, ih]

theorem tuple_lt_iff [LinearOrder α] :
    ∀ {l m : List α}, tuple_lt l m = true ↔ lex_spec l m := by
  intro l
  induction l with
  | nil => intro m; cases m <;> simp [tuple_lt, lex_spec]
  | cons x xs ih =>
    intro m
    cases m with
    | nil => simp [tuple_lt, lex_spec]
    | cons y ys =>
      by_cases hxy : x < y
      · simp [tuple_lt, lex_spec, hxy]
      · by_cases hyx : y < x
        · simp [tuple_lt, lex_spec, hxy, hyx, ne_of_gt hyx]
        · have heq : x = y := le_antisymm (not_lt.mp hyx) (not_lt.mp hxy)
          simp [tuple_lt, lex_spec, hxy, hyx, heq, ih]

theorem all_equal_cons [DecidableEq α] :
    ∀ (l : List α) (x : α), all_equal (x :: l) = true ↔ ∀ a ∈ l, a = x := by
  intro l
  induction l with
  | nil => intro x; simp [all_equal]
  | cons y ys ih =>
    intro x
    constructor
    · intro h
      rw [all_equal] at h
      simp only [Bool.and_eq_true, decide_eq_true_eq] at h
      obtain ⟨hxy, hrest⟩ := h
      intro a ha
      rcases List.mem_cons.mp ha with h | h
      · rw [h, hxy]
      · rw [(ih y).mp hrest a h, hxy]
    · intro h
      rw [all_equal]
      simp only [Bool.and_eq_true, decide_eq_true_eq]
      refine ⟨(h y (List.mem_cons_self y ys)).symm, (ih y).mpr ?_⟩
      intro a ha
      rw [h a (List.mem_cons_of_mem y ha), h y (List.mem_cons_self y ys)]

theorem all_equal_ofFn [DecidableEq α] {n : Nat} (f : Fin n → α) :
    all_equal (List.ofFn f) = true ↔ ∀ i j, f i = f j := by
  cases n with
  | zero => simp [all_equal, List.ofFn_zero]
  | succ m =>
    rw [List.ofFn_succ, all_equal_cons]
    constructor
    · intro h i j
      have key : ∀ i : Fin (m + 1), f i = f 0 := by
        intro i
        cases i using Fin.cases with
        | zero => rfl
        | succ k =>
          exact h (f k.succ) (by rw [List.mem_ofFn]; exact ⟨k, rfl⟩)
      rw [key i, key j]
    · intro h a ha
      rw [List.mem_ofFn] at ha
      obtain ⟨k, hk⟩ := ha
      rw [← hk]; exact h _ _

theorem iterate_inc_iters (it : Iter n) :
    ∀ (k : Nat) (i : Fin n),
      ((Iter.inc)^[k] it).pack.iters_ i = it.pack.iters_ i + k := by
  intro k
  induction k with
  | zero => intro i; simp
  | succ m ih =>
    intro i
    rw [Function.iterate_succ_apply', Iter.inc]
    simp only [ih i]
    omega

theorem getElem?_eq_some_getD [Inhabited α] (l : List α) (k : Nat)
    (h : k < l.length) : l[k]? = some (l.getD k default) := by
  rw [List.getD_eq_getElem?_getD, List.getElem?_eq_getElem h]
  rfl

theorem iter_swap_left (l : List α) (a b : Nat) (ha : a < l.length)
    (hb : b < l.length) : (iter_swap l a b)[a]? = l[b]? := by
  have h1 := List.getElem?_eq_getElem ha
  have h2 := List.getElem?_eq_getElem hb
  rw [iter_swap, h1, h2]
  by_cases hab : a = b
  · subst hab
    rw [List.getElem?_set_eq (by simpa using ha)]
  · rw [List.getElem?_set_ne (fun h => hab h.symm),
      List.getElem?_set_eq (by simpa using ha)]

theorem iter_swap_right (l : List α) (a b : Nat) (ha : a < l.length)
    (hb : b < l.length) : (iter_swap l a b)[b]? = l[a]? := by
  have h1 := List.getElem?_eq_getElem ha
  have h2 := List.getElem?_eq_getElem hb
  rw [iter_swap, h1, h2]
  rw [List.getElem?_set_eq (by simpa using hb)]

theorem iter_swap_other (l : List α) (a b m : Nat) (hma : m ≠ a)
    (hmb : m ≠ b) : (iter_swap l a b)[m]? = l[m]? := by
  rw [iter_swap]
  cases h1 : l[a]? with
  | none => rfl
  | some x =>
    cases h2 : l[b]? with
    | none => rfl
    | some y =>
      rw [List.getElem?_set_ne (fun h => hmb h.symm),
        List.getElem?_set_ne (fun h => hma h.symm)]

-- ============================================
--  Claim theorems
-- ============================================

/-- **C1.** For every call of `Begin` on `n ≥ 2` containers in which some
container's length differs from another's, `Begin` throws
`LengthEqualityException` and produces no cursor (the `Except` result is an
error, carrying no `Iter`). -/
theorem C1_length_mismatch_rejected {n : Nat} {α : Type} (s : Seqs n α)
    (hn : 2 ≤ n) (h : ∃ i j : Fin n, (s i).length ≠ (s j).length) :
    Begin s = .error ⟨⟩ := by
  obtain ⟨i, j, hij⟩ := h
  rw [Begin, if_neg]
  intro hall
  exact hij ((all_equal_ofFn (fun i => (s i).length)).mp hall i j)

/-- Witness for C1: two containers of lengths 1 and 0. -/
theorem C1_witness :
    Begin (fun i : Fin 2 => if i.val = 0 then ([7] : List Nat) else []) =
      .error ⟨⟩ :=
  C1_length_mismatch_rejected _ (by decide) (by decide)

/-- **C6.** For every family of `n` containers all of length `L`,
`Begin` succeeds, the cursor it returns is at offset 0 in every container,
and the `End` cursor's per-container positions all equal `L`. -/
theorem C6_equal_lengths_accepted {n : Nat} {α : Type} (s : Seqs n α)
    (L : Nat) (h : ∀ i, (s i).length = L) :
    Begin s = .ok ⟨⟨fun _ => 0⟩⟩ ∧ ∀ i, (End s).pack.iters_ i = L := by
  constructor
  · rw [Begin, if_pos]
    rw [sizes, all_equal_ofFn]
    intro i j
    rw [h i, h j]
  · intro i
    rw [End]
    exact h i

/-- Witness for C6: two containers of length 2. -/
theorem C6_witness :
    Begin (fun _ : Fin 2 => ([3, 4] : List Nat)) = .ok ⟨⟨fun _ => 0⟩⟩ ∧
      ∀ i, (End (fun _ : Fin 2 => ([3, 4] : List Nat))).pack.iters_ i = 2 :=
  C6_equal_lengths_accepted _ 2 (by decide)

/-- **C5.** Every mutating cursor operation (pre-increment, pre-decrement,
offset-add, in-place offset-add) preserves the synchronisation invariant:
if all component positions are at the same offset before the operation,
they are after it as well. -/
theorem C5_sync_invariant_preserved {n : Nat} (it : Iter n) (k : Int)
    (h : Synced it) :
    Synced it.inc ∧ Synced it.dec ∧ Synced (it.add k) ∧
      Synced (it.addAssign k) := by
  refine ⟨?_, ?_, ?_, ?_⟩ <;> intro i j <;>
    simp only [Iter.inc, Iter.dec, Iter.add, Iter.addAssign, h i j]

/-- Witness for C5: a synced cursor over two containers, shifted by `-1`. -/
theorem C5_witness :
    Synced (Iter.inc ⟨⟨fun _ : Fin 2 => 2⟩⟩) ∧
      Synced (Iter.dec ⟨⟨fun _ : Fin 2 => 2⟩⟩) ∧
      Synced (Iter.add ⟨⟨fun _ : Fin 2 => 2⟩⟩ (-1)) ∧
      Synced (Iter.addAssign ⟨⟨fun _ : Fin 2 => 2⟩⟩ (-1)) :=
  C5_sync_invariant_preserved ⟨⟨fun _ => 2⟩⟩ (-1) (fun _ _ => rfl)

/-- **C7.** Over equal-length containers of length `L`, for every
`k ∈ [0, L]`, applying pre-increment `k` times to the begin cursor yields
the same position tuple as a single offset-add of `k`, through either
`operator+` or `operator+=`. -/
theorem C7_repeated_inc_eq_offset_add {n : Nat} {α : Type} (s : Seqs n α)
    (L k : Nat) (hL : ∀ i, (s i).length = L) (hk : k ≤ L) (b : Iter n)
    (hb : Begin s = .ok b) :
    (∀ i, ((Iter.inc)^[k] b).pack.iters_ i = (b.add (k : Int)).pack.iters_ i)
    ∧ (∀ i, ((Iter.inc)^[k] b).pack.iters_ i =
        (b.addAssign (k : Int)).pack.iters_ i) := by
  have hb0 : ∀ i, b.pack.iters_ i = 0 := by
    rw [Begin] at hb
    by_cases hcond : all_equal (sizes s) = true
    · rw [if_pos hcond] at hb
      cases hb
      intro i; rfl
    · rw [if_neg hcond] at hb
      cases hb
  have key : ∀ i : Fin n, ((Iter.inc)^[k] b).pack.iters_ i =
      (b.addAssign (k : Int)).pack.iters_ i := by
    intro i
    rw [iterate_inc_iters, Iter.addAssign]
    simp only [hb0 i]
    omega
  exact ⟨key, key⟩

/-- Witness for C7: two containers of length 3, advanced by `k = 2`. -/
theorem C7_witness :
    (∀ i, ((Iter.inc)^[2] (⟨⟨fun _ => 0⟩⟩ : Iter 2)).pack.iters_ i =
        ((⟨⟨fun _ => 0⟩⟩ : Iter 2).add (2 : Int)).pack.iters_ i)
    ∧ (∀ i, ((Iter.inc)^[2] (⟨⟨fun _ => 0⟩⟩ : Iter 2)).pack.iters_ i =
        ((⟨⟨fun _ => 0⟩⟩ : Iter 2).addAssign (2 : Int)).pack.iters_ i) :=
  C7_repeated_inc_eq_offset_add (fun _ : Fin 2 => ([5, 6, 7] : List Nat))
    3 2 (fun _ => rfl) (by decide) _ rfl

/-- **C8.** Over equal-length containers of length `L`, the begin cursor
advanced exactly `L` times by pre-increment compares equal, under the
cursor (position) equality `Iter::operator==`, to the cursor built
independently by `End` on the same containers. -/
theorem C8_advanced_begin_eq_end {n : Nat} {α : Type} (s : Seqs n α)
    (L : Nat) (hL : ∀ i, (s i).length = L) (b : Iter n)
    (hb : Begin s = .ok b) :
    Iter.eq ((Iter.inc)^[L] b) (End s) = true := by
  have hb0 : ∀ i, b.pack.iters_ i = 0 := by
    rw [Begin] at hb
    by_cases hcond : all_equal (sizes s) = true
    · rw [if_pos hcond] at hb
      cases hb
      intro i; rfl
    · rw [if_neg hcond] at hb
      cases hb
  rw [Iter.eq, tuple_eq_iff, posList, posList]
  apply congrArg List.ofFn
  funext i
  rw [iterate_inc_iters, hb0, End]
  show 0 + L = (s i).length
  rw [hL, Nat.zero_add]

/-- Witness for C8: two containers of length 2. -/
theorem C8_witness :
    Iter.eq ((Iter.inc)^[2] (⟨⟨fun _ => 0⟩⟩ : Iter 2))
      (End (fun _ : Fin 2 => ([5, 6] : List Nat))) = true :=
  C8_advanced_begin_eq_end (fun _ : Fin 2 => ([5, 6] : List Nat)) 2
    (fun _ => rfl) _ rfl

/-- **C9.** `Iter::operator-` returns the signed offset difference computed
from the first component's positions only, and under the synchronisation
invariant this equals the offset difference of every component. -/
theorem C9_difference_first_component {n : Nat} (lhs rhs : Iter (n + 1))
    (hl : Synced lhs) (hr : Synced rhs) :
    Iter.sub lhs rhs =
        (lhs.pack.iters_ 0 : Int) - (rhs.pack.iters_ 0 : Int)
    ∧ ∀ i, Iter.sub lhs rhs =
        (lhs.pack.iters_ i : Int) - (rhs.pack.iters_ i : Int) := by
  refine ⟨rfl, fun i => ?_⟩
  rw [Iter.sub, hl 0 i, hr 0 i]

/-- Witness for C9: synced cursors at offsets 5 and 2 over three
containers. -/
theorem C9_witness :
    Iter.sub (⟨⟨fun _ => 5⟩⟩ : Iter 3) ⟨⟨fun _ => 2⟩⟩ =
        ((⟨⟨fun _ => 5⟩⟩ : Iter 3).pack.iters_ 0 : Int) -
          ((⟨⟨fun _ => 2⟩⟩ : Iter 3).pack.iters_ 0 : Int)
    ∧ ∀ i, Iter.sub (⟨⟨fun _ => 5⟩⟩ : Iter 3) ⟨⟨fun _ => 2⟩⟩ =
        ((⟨⟨fun _ => 5⟩⟩ : Iter 3).pack.iters_ i : Int) -
          ((⟨⟨fun _ => 2⟩⟩ : Iter 3).pack.iters_ i : Int) :=
  C9_difference_first_component ⟨⟨fun _ => 5⟩⟩ ⟨⟨fun _ => 2⟩⟩
    (fun _ _ => rfl) (fun _ _ => rfl)

/-- **C2.** The two comparison semantics are distinct and each behaves as
specified: `Iter`'s `==` holds exactly when the position tuples agree
componentwise and `Iter`'s `<` is lexicographic over the position tuple,
while `IterPack`'s `<` and `==` compare the tuples of pointed-to values —
and for valid cursors the compared values are exactly the containers'
current elements — lexicographically, component 0 (sequence 1) as the
primary key and later components breaking ties (`lex_spec`). -/
theorem C2_two_comparison_semantics {n : Nat} {α : Type} [Inhabited α]
    [LinearOrder α] (s : Seqs n α) (a b : Iter n) (p q : IterPack n)
    (hp : ValidP s p) (hq : ValidP s q) :
    (Iter.eq a b = true ↔ ∀ i, a.pack.iters_ i = b.pack.iters_ i)
    ∧ (Iter.ne a b = true ↔ ¬∀ i, a.pack.iters_ i = b.pack.iters_ i)
    ∧ (Iter.lt a b = true ↔ lex_spec (posList a) (posList b))
    ∧ (Iter.gt a b = true ↔ lex_spec (posList b) (posList a))
    ∧ (Iter.le a b = true ↔ ¬lex_spec (posList b) (posList a))
    ∧ (Iter.ge a b = true ↔ ¬lex_spec (posList a) (posList b))
    ∧ (∀ i, (s i)[p.iters_ i]? = some (p.derefAt s i))
    ∧ (∀ i, (s i)[q.iters_ i]? = some (q.derefAt s i))
    ∧ (IterPack.lt s p q = true ↔ lex_spec (p.deref s) (q.deref s))
    ∧ (IterPack.eqv s p q = true ↔ ∀ i, p.derefAt s i = q.derefAt s i) := by
  refine ⟨?_, ?_, ?_, ?_, ?_, ?_, ?_, ?_, ?_, ?_⟩
  · rw [Iter.eq, tuple_eq_iff, posList, posList, List.ofFn_inj]
    exact funext_iff
  · rw [Iter.ne, Bool.not_eq_eq_eq_not, Bool.not_true, ← Bool.not_eq_true,
      tuple_eq_iff, posList, posList, List.ofFn_inj]
    exact not_congr funext_iff
  · rw [Iter.lt, tuple_lt_iff]
  · rw [Iter.gt, tuple_lt_iff]
  · rw [Iter.le, Bool.not_eq_eq_eq_not, Bool.not_true, ← Bool.not_eq_true,
      tuple_lt_iff]
  · rw [Iter.ge, Bool.not_eq_eq_eq_not, Bool.not_true, ← Bool.not_eq_true,
      tuple_lt_iff]
  · intro i
    exact getElem?_eq_some_getD _ _ (hp i)
  · intro i
    exact getElem?_eq_some_getD _ _ (hq i)
  · rw [IterPack.lt, tuple_lt_iff]
  · rw [IterPack.eqv, tuple_eq_iff, IterPack.deref, IterPack.deref,
      List.ofFn_inj]
    exact funext_iff

/-- Witness for C2: two containers of `Nat`s, cursors at offsets 0/1. -/
theorem C2_witness :
    (Iter.eq (⟨⟨fun _ => 0⟩⟩ : Iter 2) ⟨⟨fun _ => 1⟩⟩ = true ↔
        ∀ i : Fin 2, (0 : Nat) = 1)
    ∧ (Iter.ne (⟨⟨fun _ => 0⟩⟩ : Iter 2) ⟨⟨fun _ => 1⟩⟩ = true ↔
        ¬∀ i : Fin 2, (0 : Nat) = 1)
    ∧ (Iter.lt (⟨⟨fun _ => 0⟩⟩ : Iter 2) ⟨⟨fun _ => 1⟩⟩ = true ↔
        lex_spec (posList (⟨⟨fun _ => 0⟩⟩ : Iter 2))
          (posList (⟨⟨fun _ => 1⟩⟩ : Iter 2)))
    ∧ (Iter.gt (⟨⟨fun _ => 0⟩⟩ : Iter 2) ⟨⟨fun _ => 1⟩⟩ = true ↔
        lex_spec (posList (⟨⟨fun _ => 1⟩⟩ : Iter 2))
          (posList (⟨⟨fun _ => 0⟩⟩ : Iter 2)))
    ∧ (Iter.le (⟨⟨fun _ => 0⟩⟩ : Iter 2) ⟨⟨fun _ => 1⟩⟩ = true ↔
        ¬lex_spec (posList (⟨⟨fun _ => 1⟩⟩ : Iter 2))
          (posList (⟨⟨fun _ => 0⟩⟩ : Iter 2)))
    ∧ (Iter.ge (⟨⟨fun _ => 0⟩⟩ : Iter 2) ⟨⟨fun _ => 1⟩⟩ = true ↔
        ¬lex_spec (posList (⟨⟨fun _ => 0⟩⟩ : Iter 2))
          (posList (⟨⟨fun _ => 1⟩⟩ : Iter 2)))
    ∧ (∀ i : Fin 2, (w2seqs i)[(0 : Nat)]? =
        some (IterPack.derefAt w2seqs ⟨fun _ => 0⟩ i))
    ∧ (∀ i : Fin 2, (w2seqs i)[(1 : Nat)]? =
        some (IterPack.derefAt w2seqs ⟨fun _ => 1⟩ i))
    ∧ (IterPack.lt w2seqs ⟨fun _ => 0⟩ ⟨fun _ => 1⟩ = true ↔
        lex_spec (IterPack.deref w2seqs ⟨fun _ => 0⟩)
          (IterPack.deref w2seqs ⟨fun _ => 1⟩))
    ∧ (IterPack.eqv w2seqs ⟨fun _ => 0⟩ ⟨fun _ => 1⟩ = true ↔
        ∀ i, IterPack.derefAt w2seqs ⟨fun _ => 0⟩ i =
          IterPack.derefAt w2seqs ⟨fun _ => 1⟩ i) :=
  C2_two_comparison_semantics w2seqs ⟨⟨fun _ => 0⟩⟩ ⟨⟨fun _ => 1⟩⟩
    ⟨fun _ => 0⟩ ⟨fun _ => 1⟩ (by decide) (by decide)

/-- **C3.** For two cursors over the same container group at valid offsets
`a` and `b`, `swap` exchanges, in each container `i`, the element at
offset `a` with the element at offset `b`, leaves every other element of
every container unchanged, and leaves both cursors' own positions
unchanged. -/
theorem C3_swap_exchanges_pointees {n : Nat} {α : Type} [Inhabited α]
    (s : Seqs n α) (p q : IterPack n) (a b : Nat)
    (hpa : ∀ i, p.iters_ i = a) (hqb : ∀ i, q.iters_ i = b)
    (ha : ∀ i, a < (s i).length) (hb : ∀ i, b < (s i).length) :
    (∀ i, ((swapPacks s p q).1 i)[a]? = (s i)[b]?)
    ∧ (∀ i, ((swapPacks s p q).1 i)[b]? = (s i)[a]?)
    ∧ (∀ i m, m ≠ a → m ≠ b → ((swapPacks s p q).1 i)[m]? = (s i)[m]?)
    ∧ (swapPacks s p q).2.1 = p ∧ (swapPacks s p q).2.2 = q := by
  have hfst : ∀ i, (swapPacks s p q).1 i = iter_swap (s i) a b := by
    intro i
    show iter_swap (s i) (p.iters_ i) (q.iters_ i) = iter_swap (s i) a b
    rw [hpa i, hqb i]
  refine ⟨?_, ?_, ?_, rfl, rfl⟩
  · intro i
    rw [hfst i]
    exact iter_swap_left (s i) a b (ha i) (hb i)
  · intro i
    rw [hfst i]
    exact iter_swap_right (s i) a b (ha i) (hb i)
  · intro i m hma hmb
    rw [hfst i]
    exact iter_swap_other (s i) a b m hma hmb

/-- Witness for C3: swapping offsets 0 and 1 in two length-2 containers. -/
theorem C3_witness :
    (∀ i, ((swapPacks w2seqs ⟨fun _ => 0⟩ ⟨fun _ => 1⟩).1 i)[(0 : Nat)]? =
        (w2seqs i)[(1 : Nat)]?)
    ∧ (∀ i, ((swapPacks w2seqs ⟨fun _ => 0⟩ ⟨fun _ => 1⟩).1 i)[(1 : Nat)]? =
        (w2seqs i)[(0 : Nat)]?)
    ∧ (∀ i m, m ≠ 0 → m ≠ 1 →
        ((swapPacks w2seqs ⟨fun _ => 0⟩ ⟨fun _ => 1⟩).1 i)[m]? =
          (w2seqs i)[m]?)
    ∧ (swapPacks w2seqs ⟨fun _ => 0⟩ ⟨fun _ => 1⟩).2.1 = ⟨fun _ => 0⟩
    ∧ (swapPacks w2seqs ⟨fun _ => 0⟩ ⟨fun _ => 1⟩).2.2 = ⟨fun _ => 1⟩ :=
  C3_swap_exchanges_pointees w2seqs ⟨fun _ => 0⟩ ⟨fun _ => 1⟩ 0 1
    (fun _ => rfl) (fun _ => rfl) (by decide) (by decide)

/-- **C4** (the claim; the code's mutable dereference path is ill-formed —
see `IterPack.deref`'s and `writeThrough`'s doc comments — so this theorem
settles the claim against the documented intent of the dereference).  For
every cursor at valid offsets: component `i` of the dereferenced tuple
reads container `i`'s element at the cursor's offset, and writing value `v`
through component `i` sets exactly that element, leaving the other
containers and the other elements of container `i` unchanged. -/
theorem C4_deref_reads_and_writes_elements {n : Nat} {α : Type}
    [Inhabited α] (s : Seqs n α) (p : IterPack n) (hp : ValidP s p)
    (i : Fin n) (v : α) :
    (s i)[p.iters_ i]? = some (p.derefAt s i)
    ∧ (writeThrough s p i v i)[p.iters_ i]? = some v
    ∧ (∀ j, j ≠ i → writeThrough s p i v j = s j)
    ∧ (∀ m, m ≠ p.iters_ i → (writeThrough s p i v i)[m]? = (s i)[m]?) := by
  refine ⟨getElem?_eq_some_getD _ _ (hp i), ?_, ?_, ?_⟩
  · rw [writeThrough, if_pos rfl]
    exact List.getElem?_set_eq (by simpa using hp i)
  · intro j hj
    rw [writeThrough, if_neg hj]
  · intro m hm
    rw [writeThrough, if_pos rfl]
    exact List.getElem?_set_ne (fun h => hm h.symm)

/-- Witness for C4: writing 99 through component 0 at offset 1. -/
theorem C4_witness :
    (w2seqs 0)[((⟨fun _ => 1⟩ : IterPack 2)).iters_ 0]? =
        some (IterPack.derefAt w2seqs ⟨fun _ => 1⟩ 0)
    ∧ (writeThrough w2seqs ⟨fun _ => 1⟩ 0 99 0)[
        ((⟨fun _ => 1⟩ : IterPack 2)).iters_ 0]? = some 99
    ∧ (∀ j, j ≠ 0 → writeThrough w2seqs ⟨fun _ => 1⟩ 0 99 j = w2seqs j)
    ∧ (∀ m, m ≠ ((⟨fun _ => 1⟩ : IterPack 2)).iters_ 0 →
        (writeThrough w2seqs ⟨fun _ => 1⟩ 0 99 0)[m]? = (w2seqs 0)[m]?) :=
  C4_deref_reads_and_writes_elements w2seqs ⟨fun _ => 1⟩ (by decide) 0 99

/-- **C10.** `Iter::operator*` returns (a reference to) the cursor's own
internal pack, not a snapshot: the dereference of a cursor *is* its pack,
so the view of an advanced cursor denotes the elements at the advanced
offsets; and an `IterPack` value (the declared `value_type`) consists of
iterator positions only — two packs with the same positions are the same
value — so copying it copies positions, not element values. -/
theorem C10_deref_is_the_pack_itself {n : Nat} (it : Iter n)
    (p q : IterPack n) (h : p.iters_ = q.iters_) :
    Iter.star it = it.pack
    ∧ p = q
    ∧ (∀ i, (Iter.star it.inc).iters_ i = it.pack.iters_ i + 1) := by
  refine ⟨rfl, ?_, fun i => rfl⟩
  cases p
  cases q
  cases h
  rfl

/-- Witness for C10: a cursor over two containers at offset 3. -/
theorem C10_witness :
    Iter.star (⟨⟨fun _ => 3⟩⟩ : Iter 2) = (⟨⟨fun _ => 3⟩⟩ : Iter 2).pack
    ∧ (⟨fun _ => 3⟩ : IterPack 2) = ⟨fun _ => 3⟩
    ∧ (∀ i, (Iter.star (⟨⟨fun _ => 3⟩⟩ : Iter 2).inc).iters_ i =
        (⟨⟨fun _ => 3⟩⟩ : Iter 2).pack.iters_ i + 1) :=
  C10_deref_is_the_pack_itself ⟨⟨fun _ => 3⟩⟩ ⟨fun _ => 3⟩ ⟨fun _ => 3⟩ rfl

end zip
